import Mathlib

/-!
Shallow embedding of the audit-result cache, run averager, page-state
classifier and audit orchestrator of the playwright-axe-lighthouse
combination repository
(`tests/helpers/audits/audit-cache.js`, `tests/helpers/index.js`
averaging/orchestration code, `getPageState`), together with theorems
settling the frozen claims about them.

Modelling conventions:
* JavaScript values stored in the cache / produced by audit engines are
  modelled by the inductive `JSValue`.  JavaScript numbers are modelled as
  rationals (every concrete score in the claims is float-exact).
  `undefined` and `null` are conflated into `JSValue.null`: everywhere the
  modelled code meets `undefined` (absent map entry, absent object field)
  it immediately runs it through `|| default`, a truthiness test or a
  `typeof` test, on which `null` and `undefined` behave identically.
* JavaScript `Map` objects are modelled as functions `String → Option _`.
* JavaScript object literals are modelled as association lists
  (first match wins on lookup, matching JS unique-key objects).
* `Math.round` is `⌊x + 1/2⌋` (JS rounds half-up, as does the spec).
-/

namespace AuditSpec

/-- A JavaScript value, as far as the audited helpers inspect one. -/
inductive JSValue where
  | null
  | bool (b : Bool)
  | num (q : ℚ)
  | str (s : String)
  | obj (fields : List (String × JSValue))

/-- JavaScript truthiness of a `JSValue` (NaN is not modelled; objects,
including arrays, are always truthy). -/
def truthy : JSValue → Bool
  | .null => false
  | .bool b => b
  | .num q => decide (q ≠ 0)
  | .str s => decide (s ≠ "")
  | .obj _ => true

/-- First-match lookup in an object's field list (JS property access on an
own property; absent property gives `undefined`, modelled as `none`). -/
def objLookup (k : String) : List (String × JSValue) → Option JSValue
  | [] => none
  | p :: ps => if p.1 = k then some p.2 else objLookup k ps

/-- JS property access `v[k]`: field lookup on objects, `undefined`
(modelled `null`) on everything else.  (Reading a property of an actual
`null`/`undefined` would throw in JS; the modelled code only dereferences
values it has truthiness-checked first, so `null` is a safe stand-in.) -/
def objGet (v : JSValue) (k : String) : JSValue :=
  match v with
  | .obj fields => (objLookup k fields).getD .null
  | _ => .null

/-- The own enumerable fields a spread `{...v}` copies: an object's field
list, nothing for `null`/`undefined`/booleans/numbers.  (Spreading a
string would yield index properties; the averaged runs are objects, and
the theorems about the spread assume an object.) -/
def jsFields : JSValue → List (String × JSValue)
  | .obj fields => fields
  | _ => []

/-- JS object-literal update `{...o, k: v}` restricted to one key: if `k`
is already a key its value is replaced in place, otherwise `(k, v)` is
appended (JS keeps first-occurrence order, later value wins). -/
def setField (o : List (String × JSValue)) (k : String) (v : JSValue) :
    List (String × JSValue) :=
  if o.any (fun p => p.1 = k) then
    o.map (fun p => if p.1 = k then (k, v) else p)
  else
    o ++ [(k, v)]

/-! ## The audit-result cache (`tests/helpers/audits/audit-cache.js`) -/

/-- State of the `AuditCache` class: the `cache` map of deterministic (axe)
results and the `lighthouseRuns` map of accumulated run lists, both keyed
by the string `_getCacheKey` produces. -/
structure AuditCache where
  cache : String → Option JSValue
  lighthouseRuns : String → Option (List JSValue)

/-- Source `_getCacheKey(url, state)`: the template literal joining url
and state with the delimiter, `url + "#" + state`. -/
def getCacheKey (url state : String) : String := url ++ "#" ++ state

/-- The freshly constructed cache (also the result of `clear()`). -/
def AuditCache.emptyCache : AuditCache := ⟨fun _ => none, fun _ => none⟩

/-- Source `get(url, state)`: `this.cache.get(key) || null` — a stored falsy value
or an absent entry both come back as `null`. -/
def AuditCache.get (c : AuditCache) (url state : String) : JSValue :=
  match c.cache (getCacheKey url state) with
  | some v => if truthy v then v else .null
  | none => .null

/-- Source `getLighthouseRuns(url, state)`: `this.lighthouseRuns.get(key) || []`
(an absent entry yields the empty list; a present list, even empty, is a
truthy JS array and is returned as is). -/
def AuditCache.getLighthouseRuns (c : AuditCache) (url state : String) :
    List JSValue :=
  (c.lighthouseRuns (getCacheKey url state)).getD []

/-- Source `addLighthouseRun(url, results, state)`: append `results` to the run
list for the key, creating the list if absent. -/
def AuditCache.addLighthouseRun (c : AuditCache) (url : String)
    (results : JSValue) (state : String) : AuditCache :=
  { c with
    lighthouseRuns := fun k =>
      if k = getCacheKey url state then
        some (c.getLighthouseRuns url state ++ [results])
      else c.lighthouseRuns k }

/-- Source `set(url, results, state)`: `this.cache.set(key, results)` — overwrite
semantics. -/
def AuditCache.set (c : AuditCache) (url : String) (results : JSValue)
    (state : String) : AuditCache :=
  { c with
    cache := fun k =>
      if k = getCacheKey url state then some results else c.cache k }

/-- Source `has(url, state)`: `this.cache.has(key)`. -/
def AuditCache.has (c : AuditCache) (url state : String) : Bool :=
  (c.cache (getCacheKey url state)).isSome

/-- Source `hasEnoughLighthouseRuns(url, state, requiredRuns)`:
`runs.length >= requiredRuns`. -/
def AuditCache.hasEnoughLighthouseRuns (c : AuditCache) (url state : String)
    (requiredRuns : ℕ) : Bool :=
  (c.getLighthouseRuns url state).length ≥ requiredRuns

/-- Source `clear()`: empties both maps. -/
def AuditCache.clear (_c : AuditCache) : AuditCache := AuditCache.emptyCache

/-! ## The run averager (`calculateAverageLighthouseScores`) -/

/-- JS `Math.round`: round half-up, `⌊x + 1/2⌋`. -/
def jsRound (q : ℚ) : ℤ := ⌊q + 1/2⌋

/-- The fixed `metrics` array of `calculateAverageLighthouseScores`. -/
def scoreMetrics : List String :=
  ["performance", "accessibility", "bestPractices", "seo", "pwa"]

/-- What one run adds to `totals[metric]`: its `scores[metric]` when the
run and its `scores` field are truthy and that entry is a number
(`typeof run.scores[metric] === "number"`), else `0`. -/
def scoreContribution (metric : String) (run : JSValue) : ℚ :=
  if truthy run && truthy (objGet run "scores") then
    match objGet (objGet run "scores") metric with
    | .num q => q
    | _ => 0
  else 0

/-- Value of `totals[metric]` after the summing loop. -/
def scoreTotal (metric : String) (runs : List JSValue) : ℚ :=
  (runs.map (scoreContribution metric)).sum

/-- Source `averages[metric] = Math.round((totals[metric] / runs.length) * 100) / 100`. -/
def averageScore (runs : List JSValue) (metric : String) : ℚ :=
  ((jsRound (scoreTotal metric runs / runs.length * 100) : ℚ)) / 100

/-- The `averages` object built metric by metric. -/
def averagedScores (runs : List JSValue) : List (String × JSValue) :=
  scoreMetrics.map (fun m => (m, .num (averageScore runs m)))

/-- Source `calculateAverageLighthouseScores(runs)`: `null` on an empty list, else
`{...runs[runs.length - 1], scores: averages, runs: runs.length}`.
(The JS `!runs` guard also catches a `null` argument; all call sites pass
the list `getLighthouseRuns` returns, so the model takes a list.) -/
def calculateAverageLighthouseScores (runs : List JSValue) : Option JSValue :=
  if runs.length = 0 then none
  else
    some (.obj (setField
      (setField (jsFields ((runs.getLast?).getD .null)) "scores"
        (.obj (averagedScores runs)))
      "runs" (.num runs.length)))

/-- Example run carrying only a `performance` score, as in the spec's
concrete averaging examples `{performance: s}`. -/
def perfRun (q : ℚ) : JSValue :=
  .obj [("scores", .obj [("performance", .num q)])]

/-! ## The page-state classifier (`getPageState`) -/

/-- Source `getPageState(page)`, with the live page abstracted to the list of
todo items it would report: one `Bool` per `.todo-list li` element, `true`
iff that element also matches `.todo-list li.completed`.  The conditions
are evaluated in the source's fixed order. -/
def getPageState (items : List Bool) : String :=
  if items.length = 0 then "empty"
  else if (items.filter id).length > 0 ∧
      (items.filter id).length = items.length then "completed"
  else if (items.filter id).length > 0 ∧
      (items.filter id).length < items.length then "mixed"
  else "with-items"

/-- Spec-side page-state classifier, written from the spec's words: an
empty item list classifies as `empty`; all items of a nonempty list done
classifies as `completed`; a nonempty strict subset done classifies as
`mixed`; otherwise `with-items`.  Compared against `getPageState`. -/
def classifyPageStateSpec (items : List Bool) : String :=
  if items = [] then "empty"
  else if items.all id then "completed"
  else if 0 < items.count true ∧ items.count true < items.length then "mixed"
  else "with-items"

/-- Spec-side list of the scores actually present for a metric: one entry
per run that is truthy, has a truthy `scores` field, and carries a numeric
value for the metric.  Runs missing the metric produce no entry.  Used to
state that the averager's numerator is the sum of the present scores while
its denominator stays `runs.length`. -/
def presentScores (metric : String) (runs : List JSValue) : List ℚ :=
  runs.filterMap (fun run =>
    if truthy run && truthy (objGet run "scores") then
      match objGet (objGet run "scores") metric with
      | .num q => some q
      | _ => none
    else none)

/-! ## The audit orchestrator (`runCombinedAudit`) -/

/-- The two feature flags `ENABLE_AXE` / `ENABLE_LIGHTHOUSE` read from the
environment. -/
structure Env where
  enableAxe : Bool
  enableLighthouse : Bool

/-- The two external audit engines, as oracles indexed by invocation
number: the `i`-th invocation of an engine yields `engine i`, either a
result value or a thrown failure (`Except.error`). -/
structure Engines where
  axe : ℕ → Except String JSValue
  lighthouse : ℕ → Except String JSValue

/-- The process-wide mutable state `runCombinedAudit` touches: the
singleton `auditCache`, the `testState` result collection, and (model
bookkeeping) how many times each external engine has been invoked. -/
structure OrchState where
  cache : AuditCache
  results : List JSValue
  axeCalls : ℕ
  lighthouseCalls : ℕ

/-- The constant `REQUIRED_LIGHTHOUSE_RUNS`. -/
def REQUIRED_LIGHTHOUSE_RUNS : ℕ := 3

/-- The axe phase of `runCombinedAudit`: on a cache hit reuse
`cachedResults.axeResults`; on a miss invoke the axe engine once and store
`{ axeResults }`; a thrown engine failure propagates (second component
`Except.error`) with the state mutations made so far kept. -/
def axePhase (env : Env) (engines : Engines) (url state : String)
    (s : OrchState) : OrchState × Except String JSValue :=
  if env.enableAxe then
    if s.cache.has url state then
      (s, .ok (objGet (s.cache.get url state) "axeResults"))
    else
      match engines.axe s.axeCalls with
      | .error e => ({ s with axeCalls := s.axeCalls + 1 }, .error e)
      | .ok v =>
        ({ s with
            axeCalls := s.axeCalls + 1,
            cache := s.cache.set url (.obj [("axeResults", v)]) state },
          .ok v)
  else (s, .ok .null)

/-- The `for (let i = 0; i < remainingRuns; i++)` loop: invoke the
lighthouse engine and append the run to the cache, `n` times, stopping at
the first thrown failure (`some e`); cache mutations made before the
failure are kept. -/
def lighthouseLoop (engines : Engines) (url state : String) :
    ℕ → OrchState → OrchState × Option String
  | 0, s => (s, none)
  | n + 1, s =>
    match engines.lighthouse s.lighthouseCalls with
    | .error e => ({ s with lighthouseCalls := s.lighthouseCalls + 1 }, some e)
    | .ok v =>
      lighthouseLoop engines url state n
        { s with
          lighthouseCalls := s.lighthouseCalls + 1,
          cache := s.cache.addLighthouseRun url v state }

/-- The lighthouse phase of `runCombinedAudit`: top the run list up to
`REQUIRED_LIGHTHOUSE_RUNS` entries via the loop, then average all
accumulated runs. -/
def lighthousePhase (env : Env) (engines : Engines) (url state : String)
    (s : OrchState) : OrchState × Except String JSValue :=
  if env.enableLighthouse then
    let looped :=
      if ¬ (s.cache.hasEnoughLighthouseRuns url state REQUIRED_LIGHTHOUSE_RUNS) then
        lighthouseLoop engines url state
          (REQUIRED_LIGHTHOUSE_RUNS - (s.cache.getLighthouseRuns url state).length) s
      else (s, none)
    match looped with
    | (s1, some e) => (s1, .error e)
    | (s1, none) =>
      (s1, .ok ((calculateAverageLighthouseScores
        (s1.cache.getLighthouseRuns url state)).getD .null))
  else (s, .ok .null)

/-- The `result` object literal `runCombinedAudit` assembles.  `testInfo`
is the metadata object passed by the runner; `testName` is
`` testInfo.title || `Test for ${url}` ``. -/
def combinedResult (url : String) (testInfo lighthouseResults axeResults :
    JSValue) : JSValue :=
  .obj
    [("testFile", objGet testInfo "file"),
     ("testName",
       if truthy (objGet testInfo "title") then objGet testInfo "title"
       else .str ("Test for " ++ url)),
     ("url", .str url),
     ("lighthouseResults", lighthouseResults),
     ("axeResults", axeResults),
     ("testInfo", .obj
       [("title",
          if truthy (objGet testInfo "title") then objGet testInfo "title"
          else .str ("Test for " ++ url)),
        ("url", .str url),
        ("project", objGet testInfo "project")])]

/-- Source `runCombinedAudit(page, testInfo, config)`: resolve the state label
from the page's items, run the axe phase then the lighthouse phase (an
uncaught engine failure in either aborts the call), assemble the
`CombinedResult` and append it to the `testState` collection.  The page is
abstracted to its `url` and its todo-item list `items`. -/
def runCombinedAudit (env : Env) (engines : Engines) (url : String)
    (items : List Bool) (testInfo : JSValue) (s : OrchState) :
    OrchState × Except String JSValue :=
  match axePhase env engines url (getPageState items) s with
  | (s1, .error e) => (s1, .error e)
  | (s1, .ok axeResults) =>
    match lighthousePhase env engines url (getPageState items) s1 with
    | (s2, .error e) => (s2, .error e)
    | (s2, .ok lighthouseResults) =>
      let result := combinedResult url testInfo lighthouseResults axeResults
      ({ s2 with results := s2.results ++ [result] }, .ok result)

/-! ## Helper lemmas -/

/-- Splitting a list at an occurrence of `sep` that neither suffix
contains is unambiguous. -/
theorem append_sep_inj {α : Type} (sep : α) :
    ∀ l1 l2 r1 r2 : List α, sep ∉ r1 → sep ∉ r2 →
      l1 ++ sep :: r1 = l2 ++ sep :: r2 → l1 = l2 ∧ r1 = r2 := by
  intro l1
  induction l1 with
  | nil =>
    intro l2 r1 r2 h1 h2 h
    cases l2 with
    | nil => simpa using h
    | cons x xs =>
      simp only [List.nil_append, List.cons_append, List.cons.injEq] at h
      exact absurd (h.2 ▸ List.mem_append_right xs (List.mem_cons_self sep r2))
        h1
  | cons x xs ih =>
    intro l2 r1 r2 h1 h2 h
    cases l2 with
    | nil =>
      simp only [List.nil_append, List.cons_append, List.cons.injEq] at h
      exact absurd (h.2.symm ▸ List.mem_append_right xs
        (List.mem_cons_self sep r1)) h2
    | cons y ys =>
      simp only [List.cons_append, List.cons.injEq] at h
      obtain ⟨hl, hr⟩ := ih ys r1 r2 h1 h2 h.2
      exact ⟨by rw [h.1, hl], hr⟩

/-- As long as neither state label contains the delimiter `'#'`, distinct
`(url, state)` pairs produce distinct cache keys. -/
theorem getCacheKey_inj (u1 s1 u2 s2 : String)
    (h1 : '#' ∉ s1.data) (h2 : '#' ∉ s2.data)
    (h : getCacheKey u1 s1 = getCacheKey u2 s2) : u1 = u2 ∧ s1 = s2 := by
  have hd : u1.data ++ '#' :: s1.data =
      u2.data ++ '#' :: s2.data := by
    have := congrArg String.data h
    simpa [getCacheKey, String.data_append] using this
  obtain ⟨hu, hs⟩ := append_sep_inj ('#') u1.data u2.data
    s1.data s2.data h1 h2 hd
  exact ⟨String.ext hu, String.ext hs⟩

theorem get_set_of_key_ne (c : AuditCache) (u1 s1 u2 s2 : String)
    (v : JSValue) (hkey : getCacheKey u2 s2 ≠ getCacheKey u1 s1) :
    (c.set u1 v s1).get u2 s2 = c.get u2 s2 := by
  simp [AuditCache.get, AuditCache.set, hkey]

theorem has_set_of_key_ne (c : AuditCache) (u1 s1 u2 s2 : String)
    (v : JSValue) (hkey : getCacheKey u2 s2 ≠ getCacheKey u1 s1) :
    (c.set u1 v s1).has u2 s2 = c.has u2 s2 := by
  simp [AuditCache.has, AuditCache.set, hkey]

theorem getLighthouseRuns_addLighthouseRun_of_key_ne (c : AuditCache)
    (u1 s1 u2 s2 : String) (r : JSValue)
    (hkey : getCacheKey u2 s2 ≠ getCacheKey u1 s1) :
    (c.addLighthouseRun u1 r s1).getLighthouseRuns u2 s2 =
      c.getLighthouseRuns u2 s2 := by
  simp [AuditCache.getLighthouseRuns, AuditCache.addLighthouseRun, hkey]

theorem getLighthouseRuns_addLighthouseRun_self (c : AuditCache)
    (url state : String) (r : JSValue) :
    (c.addLighthouseRun url r state).getLighthouseRuns url state =
      c.getLighthouseRuns url state ++ [r] := by
  simp [AuditCache.getLighthouseRuns, AuditCache.addLighthouseRun]

/-! ## Claim C2 -/

/-- C2 as frozen is false on the code: the pairs `("a#b", "c")` and
`("a", "b#c")` are distinct, yet a value stored under the first is
returned by `get` for the second, because both pairs join to the cache key
`"a#b#c"`. -/
theorem C2_counterexample :
    ("a#b", "c") ≠ ("a", "b#c") ∧
    (AuditCache.emptyCache.set "a#b" (JSValue.num 1) "c").get "a" "b#c" =
      JSValue.num 1 :=
  ⟨by decide, rfl⟩

/-- C2 (amended): for every two cache keys `(url1, state1)` and
`(url2, state2)` whose state labels do not contain the delimiter character
`'#'`, with `(url1, state1) ≠ (url2, state2)`, the cache entries never
collide: a value stored under one pair is never returned by `get`,
`getLighthouseRuns`, or `has` for the other pair. -/
theorem C2_key_isolation (u1 s1 u2 s2 : String)
    (h1 : '#' ∉ s1.data) (h2 : '#' ∉ s2.data)
    (hne : (u1, s1) ≠ (u2, s2)) (c : AuditCache) (v r : JSValue) :
    (c.set u1 v s1).get u2 s2 = c.get u2 s2 ∧
    (c.set u1 v s1).has u2 s2 = c.has u2 s2 ∧
    (c.addLighthouseRun u1 r s1).getLighthouseRuns u2 s2 =
      c.getLighthouseRuns u2 s2 := by
  have hkey : getCacheKey u2 s2 ≠ getCacheKey u1 s1 := by
    intro h
    obtain ⟨hu, hs⟩ := getCacheKey_inj u2 s2 u1 s1 h2 h1 h
    exact hne (by rw [hu, hs])
  exact ⟨get_set_of_key_ne c u1 s1 u2 s2 v hkey,
    has_set_of_key_ne c u1 s1 u2 s2 v hkey,
    getLighthouseRuns_addLighthouseRun_of_key_ne c u1 s1 u2 s2 r hkey⟩

/-- Witness for C2 (amended) at the spec's own example pairs
`("/todo", "empty")` and `("/todo", "mixed")`. -/
theorem C2_key_isolation_witness :
    ('#' ∉ "empty".data ∧ '#' ∉ "mixed".data ∧
      ("/todo", "empty") ≠ ("/todo", "mixed")) ∧
    ((AuditCache.emptyCache.set "/todo" (JSValue.num 1) "empty").get
        "/todo" "mixed" = AuditCache.emptyCache.get "/todo" "mixed" ∧
      (AuditCache.emptyCache.set "/todo" (JSValue.num 1) "empty").has
        "/todo" "mixed" = AuditCache.emptyCache.has "/todo" "mixed" ∧
      (AuditCache.emptyCache.addLighthouseRun "/todo" (JSValue.num 2)
          "empty").getLighthouseRuns "/todo" "mixed" =
        AuditCache.emptyCache.getLighthouseRuns "/todo" "mixed") :=
  ⟨⟨by decide, by decide, by decide⟩,
    C2_key_isolation "/todo" "empty" "/todo" "mixed" (by decide) (by decide)
      (by decide) AuditCache.emptyCache (JSValue.num 1) (JSValue.num 2)⟩

/-! ## Claim C4 -/

/-- C4 as frozen is false on the code at a falsy second write: after
`set(key, 1)` then `set(key, 0)`, `get` returns `null` (because of the
`|| null` in `get`), not the last-written `0`. -/
theorem C4_counterexample :
    ((AuditCache.emptyCache.set "u" (JSValue.num 1) "").set "u"
        (JSValue.num 0) "").get "u" "" = JSValue.null ∧
    JSValue.null ≠ JSValue.num 0 :=
  ⟨rfl, fun h => JSValue.noConfusion h⟩

/-- C4 (amended): for every key and every pair of results `A` and `B`,
`set(key, A)` then `set(key, B)` stores `B` as the cache entry (last write
wins); `get(key)` then returns `B` whenever `B` is truthy (for a falsy `B`
it returns `null`, see C9). -/
theorem C4_last_write_wins (c : AuditCache) (url state : String)
    (A B : JSValue) (hB : truthy B = true) :
    ((c.set url A state).set url B state).cache (getCacheKey url state) =
      some B ∧
    ((c.set url A state).set url B state).get url state = B := by
  constructor
  · simp [AuditCache.set]
  · simp [AuditCache.get, AuditCache.set, hB]

/-- Witness for C4 (amended) at key `("u", "")`, `A = 1`, `B = 2`. -/
theorem C4_last_write_wins_witness :
    truthy (JSValue.num 2) = true ∧
    (((AuditCache.emptyCache.set "u" (JSValue.num 1) "").set "u"
        (JSValue.num 2) "").cache (getCacheKey "u" "") =
      some (JSValue.num 2) ∧
    ((AuditCache.emptyCache.set "u" (JSValue.num 1) "").set "u"
        (JSValue.num 2) "").get "u" "" = JSValue.num 2) :=
  ⟨by decide, C4_last_write_wins AuditCache.emptyCache "u" ""
    (JSValue.num 1) (JSValue.num 2) (by decide)⟩

/-! ## Claim C9 -/

/-- C9: for falsy stored values — `null`, `0`, and the empty string —
`set(key, value)` makes `has(key)` return `true` while `get(key)` returns
`null`: `get` conflates stored falsy values with absence, so
`has(key) = true` does not imply that `get(key)` is non-null. -/
theorem C9_falsy_value_conflated_with_absence :
    ((AuditCache.emptyCache.set "u" JSValue.null "").has "u" "" = true ∧
      (AuditCache.emptyCache.set "u" JSValue.null "").get "u" "" =
        JSValue.null) ∧
    ((AuditCache.emptyCache.set "u" (JSValue.num 0) "").has "u" "" = true ∧
      (AuditCache.emptyCache.set "u" (JSValue.num 0) "").get "u" "" =
        JSValue.null) ∧
    ((AuditCache.emptyCache.set "u" (JSValue.str "") "").has "u" "" = true ∧
      (AuditCache.emptyCache.set "u" (JSValue.str "") "").get "u" "" =
        JSValue.null) :=
  ⟨⟨rfl, rfl⟩, ⟨rfl, rfl⟩, ⟨rfl, rfl⟩⟩

/-! ## Claim C6 -/

theorem length_filter_id (l : List Bool) :
    (l.filter id).length = l.count true := by
  induction l with
  | nil => rfl
  | cons b t ih => cases b <;> simp [List.count_cons, ih]

/-- C6: the page-state classifier, checking its conditions in the source's
fixed precedence order, agrees with the spec's description: `"empty"` on
an empty item list, `"completed"` when all of a nonempty item list is
done, `"mixed"` when a nonempty strict subset is done, and `"with-items"`
otherwise. -/
theorem C6_page_state_classification (items : List Bool) :
    getPageState items = classifyPageStateSpec items := by
  unfold getPageState classifyPageStateSpec
  rw [length_filter_id]
  by_cases h0 : items = []
  · simp [h0]
  · have hlen : items.length ≠ 0 := by
      simpa [List.length_eq_zero] using h0
    rw [if_neg hlen, if_neg h0]
    by_cases hall : items.all id
    · have hcnt : items.count true = items.length := by
        rw [List.count_eq_length]
        intro b hb
        exact ((List.all_eq_true.mp hall) b hb).symm
      rw [if_pos ⟨by omega, hcnt⟩, if_pos hall]
    · have hne : items.count true ≠ items.length := by
        intro hcnt
        exact hall (List.all_eq_true.mpr
          (fun b hb => ((List.count_eq_length.mp hcnt) b hb).symm))
      have hlt : items.count true < items.length :=
        lt_of_le_of_ne (List.count_le_length true items) hne
      rw [if_neg (by omega : ¬((0:ℕ) < items.count true ∧
        items.count true = items.length)), if_neg hall]

/-! ## Averager helper lemmas -/

theorem objLookup_append (k : String) (a b : List (String × JSValue)) :
    objLookup k (a ++ b) =
      match objLookup k a with
      | some v => some v
      | none => objLookup k b := by
  induction a with
  | nil => simp [objLookup]
  | cons p ps ih =>
    by_cases h : p.1 = k <;> simp [objLookup, h, ih]

theorem objLookup_setField_self (o : List (String × JSValue)) (k : String)
    (v : JSValue) : objLookup k (setField o k v) = some v := by
  unfold setField
  by_cases hany : o.any (fun p => p.1 = k)
  · rw [if_pos hany]
    induction o with
    | nil => simp at hany
    | cons p ps ih =>
      by_cases h : p.1 = k
      · simp [objLookup, h]
      · have : ps.any (fun p => p.1 = k) := by
          simpa [List.any_cons, h] using hany
        simpa [objLookup, h] using ih this
  · rw [if_neg hany]
    have hnone : objLookup k o = none := by
      induction o with
      | nil => rfl
      | cons p ps ih =>
        simp only [List.any_cons, Bool.or_eq_true, not_or] at hany
        have hp : ¬ p.1 = k := by simpa using hany.1
        simpa [objLookup, hp] using ih (by simpa using hany.2)
    rw [objLookup_append, hnone]
    simp [objLookup]

theorem objLookup_map_replace (o : List (String × JSValue))
    (k k' : String) (v : JSValue) (h : k' ≠ k) :
    objLookup k' (o.map (fun p => if p.1 = k then (k, v) else p)) =
      objLookup k' o := by
  induction o with
  | nil => rfl
  | cons p ps ih =>
    simp only [List.map_cons]
    by_cases hp : p.1 = k
    · rw [if_pos hp]
      have hk : ¬ (k = k') := fun hh => h hh.symm
      have hpk : ¬ (p.1 = k') := by rw [hp]; exact hk
      simp [objLookup, hk, hpk, ih]
    · rw [if_neg hp]
      by_cases hpk : p.1 = k'
      · simp [objLookup, hpk]
      · simp [objLookup, hpk, ih]

theorem objLookup_setField_of_ne (o : List (String × JSValue))
    (k k' : String) (v : JSValue) (h : k' ≠ k) :
    objLookup k' (setField o k v) = objLookup k' o := by
  unfold setField
  by_cases hany : o.any (fun p => p.1 = k)
  · rw [if_pos hany]
    exact objLookup_map_replace o k k' v h
  · rw [if_neg hany, objLookup_append]
    cases hl : objLookup k' o with
    | some w => rfl
    | none =>
      have hk : ¬ (k = k') := fun hh => h hh.symm
      simp [objLookup, hk]

theorem scoreTotal_eq_presentScores_sum (metric : String)
    (runs : List JSValue) :
    scoreTotal metric runs = (presentScores metric runs).sum := by
  induction runs with
  | nil => rfl
  | cons run rest ih =>
    unfold scoreTotal presentScores at ih ⊢
    simp only [List.map_cons, List.sum_cons, List.filterMap_cons]
    by_cases hr : truthy run && truthy (objGet run "scores")
    · cases hv : objGet (objGet run "scores") metric with
      | num q => simp [scoreContribution, hr, hv, ih]
      | null => simp [scoreContribution, hr, hv, ih]
      | bool b => simp [scoreContribution, hr, hv, ih]
      | str s => simp [scoreContribution, hr, hv, ih]
      | obj fields => simp [scoreContribution, hr, hv, ih]
    · simp [scoreContribution, hr, ih]

theorem calcAvg_lookups (runs : List JSValue) (hne : runs ≠ []) :
    ∃ res, calculateAverageLighthouseScores runs = some (JSValue.obj res) ∧
      objLookup "runs" res = some (JSValue.num runs.length) ∧
      objLookup "scores" res = some (JSValue.obj (averagedScores runs)) ∧
      ∀ k, k ≠ "scores" → k ≠ "runs" →
        objLookup k res =
          objLookup k (jsFields ((runs.getLast?).getD .null)) := by
  have hlen : ¬ runs.length = 0 := by
    simpa [List.length_eq_zero] using hne
  refine ⟨setField (setField (jsFields ((runs.getLast?).getD .null)) "scores"
      (JSValue.obj (averagedScores runs))) "runs" (JSValue.num runs.length),
    ?_, ?_, ?_, ?_⟩
  · unfold calculateAverageLighthouseScores
    rw [if_neg hlen]
  · exact objLookup_setField_self _ _ _
  · rw [objLookup_setField_of_ne _ _ _ _ (by decide : "scores" ≠ "runs")]
    exact objLookup_setField_self _ _ _
  · intro k hks hkr
    rw [objLookup_setField_of_ne _ _ _ _ hkr,
      objLookup_setField_of_ne _ _ _ _ hks]

/-! ## Claim C8 -/

/-- C8: for every non-empty run list whose last run is an object, the
averager returns an object that carries the averaged scores under
`scores`, a `runs` count equal to the input length, and all other
(non-score) fields copied from the last run in the list; the average of
the empty list is `null` (`none`). -/
theorem C8_result_carries_last_run_fields (runs : List JSValue)
    (fields : List (String × JSValue)) (hne : runs ≠ [])
    (hlast : runs.getLast? = some (JSValue.obj fields)) :
    calculateAverageLighthouseScores [] = none ∧
    ∃ res, calculateAverageLighthouseScores runs = some (JSValue.obj res) ∧
      objLookup "runs" res = some (JSValue.num runs.length) ∧
      objLookup "scores" res = some (JSValue.obj (averagedScores runs)) ∧
      ∀ k, k ≠ "scores" → k ≠ "runs" →
        objLookup k res = objLookup k fields := by
  obtain ⟨res, hcalc, hruns, hscores, hrest⟩ := calcAvg_lookups runs hne
  refine ⟨rfl, res, hcalc, hruns, hscores, ?_⟩
  intro k hks hkr
  rw [hrest k hks hkr, hlast]
  rfl

/-- Witness for C8 at a one-run list whose run carries a report-path
field. -/
theorem C8_result_carries_last_run_fields_witness :
    ([JSValue.obj [("reportPaths", JSValue.str "p")]] ≠ ([] : List JSValue) ∧
      ([JSValue.obj [("reportPaths", JSValue.str "p")]] :
        List JSValue).getLast? =
        some (JSValue.obj [("reportPaths", JSValue.str "p")])) ∧
    (calculateAverageLighthouseScores [] = none ∧
    ∃ res, calculateAverageLighthouseScores
        [JSValue.obj [("reportPaths", JSValue.str "p")]] =
        some (JSValue.obj res) ∧
      objLookup "runs" res =
        some (JSValue.num ([JSValue.obj [("reportPaths", JSValue.str "p")]] :
          List JSValue).length) ∧
      objLookup "scores" res =
        some (JSValue.obj (averagedScores
          [JSValue.obj [("reportPaths", JSValue.str "p")]])) ∧
      ∀ k, k ≠ "scores" → k ≠ "runs" →
        objLookup k res =
          objLookup k [("reportPaths", JSValue.str "p")]) :=
  ⟨⟨List.cons_ne_nil _ _, rfl⟩,
    C8_result_carries_last_run_fields _ _ (List.cons_ne_nil _ _) rfl⟩

/-! ## Claim C10 -/

/-- C10: for every non-empty run list — whatever score keys the input runs
carry — the averager's returned `scores` object is the `averages` object,
whose keys are exactly `performance`, `accessibility`, `bestPractices`,
`seo`, `pwa` in that order, each bound to a number. -/
theorem C10_scores_object_shape (runs : List JSValue) (hne : runs ≠ []) :
    ∃ res, calculateAverageLighthouseScores runs = some (JSValue.obj res) ∧
      objLookup "scores" res = some (JSValue.obj (averagedScores runs)) ∧
      (averagedScores runs).map Prod.fst =
        ["performance", "accessibility", "bestPractices", "seo", "pwa"] ∧
      ∀ p ∈ averagedScores runs, ∃ q : ℚ, p.2 = JSValue.num q := by
  obtain ⟨res, hcalc, _, hscores, _⟩ := calcAvg_lookups runs hne
  refine ⟨res, hcalc, hscores, by simp [averagedScores, scoreMetrics], ?_⟩
  intro p hp
  simp only [averagedScores, List.mem_map] at hp
  obtain ⟨m, _, rfl⟩ := hp
  exact ⟨_, rfl⟩

/-- Witness for C10 at a run shaped like the lighthouse engine's actual
output (a `metrics` field with a `best-practices` key, no `scores`). -/
theorem C10_scores_object_shape_witness :
    ([JSValue.obj [("metrics",
        JSValue.obj [("best-practices", JSValue.num 95)])]] ≠
      ([] : List JSValue)) ∧
    ∃ res, calculateAverageLighthouseScores
        [JSValue.obj [("metrics",
          JSValue.obj [("best-practices", JSValue.num 95)])]] =
        some (JSValue.obj res) ∧
      objLookup "scores" res =
        some (JSValue.obj (averagedScores
          [JSValue.obj [("metrics",
            JSValue.obj [("best-practices", JSValue.num 95)])]])) ∧
      (averagedScores [JSValue.obj [("metrics",
          JSValue.obj [("best-practices", JSValue.num 95)])]]).map Prod.fst =
        ["performance", "accessibility", "bestPractices", "seo", "pwa"] ∧
      ∀ p ∈ averagedScores [JSValue.obj [("metrics",
          JSValue.obj [("best-practices", JSValue.num 95)])]],
        ∃ q : ℚ, p.2 = JSValue.num q :=
  ⟨List.cons_ne_nil _ _, C10_scores_object_shape _ (List.cons_ne_nil _ _)⟩

/-! ## Claim C1 -/

/-- C1: averaging the runs `[{performance: 80}, {performance: 90},
{performance: 100}]` yields a result whose `performance` score is `90.00`
and whose `runs` count is `3`. -/
theorem C1_average_80_90_100 :
    ∃ res, calculateAverageLighthouseScores
        [perfRun 80, perfRun 90, perfRun 100] = some (JSValue.obj res) ∧
      objGet (objGet (JSValue.obj res) "scores") "performance" =
        JSValue.num 90 ∧
      objGet (JSValue.obj res) "runs" = JSValue.num 3 := by
  obtain ⟨res, hcalc, hruns, hscores, _⟩ :=
    calcAvg_lookups [perfRun 80, perfRun 90, perfRun 100]
      (List.cons_ne_nil _ _)
  refine ⟨res, hcalc, ?_, ?_⟩
  · have havg : averageScore [perfRun 80, perfRun 90, perfRun 100]
        "performance" = 90 := by
      unfold averageScore scoreTotal
      norm_num [scoreContribution, perfRun, objGet, objLookup, truthy,
        jsRound]
    simp [objGet, hscores, averagedScores, scoreMetrics, objLookup, havg]
  · simp [objGet, hruns]

/-! ## Claim C5 -/

/-- C5: a run missing a metric contributes nothing to the metric's sum —
the numerator is the sum of only the scores actually present — while the
denominator is always the full list length; in particular averaging
`[{performance: 90}, {}]` yields `performance: 45.00`. -/
theorem C5_missing_metric_counts_in_denominator :
    (∀ (metric : String) (runs : List JSValue), runs ≠ [] →
      averageScore runs metric =
        ((jsRound ((presentScores metric runs).sum / runs.length * 100) :
          ℚ)) / 100) ∧
    ∃ res, calculateAverageLighthouseScores [perfRun 90, JSValue.obj []] =
        some (JSValue.obj res) ∧
      objGet (objGet (JSValue.obj res) "scores") "performance" =
        JSValue.num 45 := by
  constructor
  · intro metric runs _
    unfold averageScore
    rw [scoreTotal_eq_presentScores_sum]
  · obtain ⟨res, hcalc, _, hscores, _⟩ :=
      calcAvg_lookups [perfRun 90, JSValue.obj []] (List.cons_ne_nil _ _)
    refine ⟨res, hcalc, ?_⟩
    have havg : averageScore [perfRun 90, JSValue.obj []]
        "performance" = 45 := by
      unfold averageScore scoreTotal
      norm_num [scoreContribution, perfRun, objGet, objLookup, truthy,
        jsRound]
    simp [objGet, hscores, averagedScores, scoreMetrics, objLookup, havg]

/-- Witness for C5's universally quantified part at
`metric = "performance"`, `runs = [{performance: 90}, {}]`. -/
theorem C5_missing_metric_counts_in_denominator_witness :
    ([perfRun 90, JSValue.obj []] ≠ ([] : List JSValue)) ∧
    averageScore [perfRun 90, JSValue.obj []] "performance" =
      ((jsRound ((presentScores "performance"
          [perfRun 90, JSValue.obj []]).sum /
        ([perfRun 90, JSValue.obj []] : List JSValue).length * 100) :
        ℚ)) / 100 :=
  ⟨List.cons_ne_nil _ _,
    C5_missing_metric_counts_in_denominator.1 "performance"
      [perfRun 90, JSValue.obj []] (List.cons_ne_nil _ _)⟩

/-! ## Orchestrator helper lemmas -/

theorem axePhase_ok (env : Env) (engines : Engines) (url state : String)
    (s : OrchState) (hax : ∀ i, ∃ v, engines.axe i = .ok v) :
    ∃ s1 v, axePhase env engines url state s = (s1, .ok v) ∧
      s1.cache.lighthouseRuns = s.cache.lighthouseRuns ∧
      s1.lighthouseCalls = s.lighthouseCalls ∧
      s1.results = s.results := by
  unfold axePhase
  by_cases he : env.enableAxe = true
  · rw [if_pos he]
    by_cases hh : s.cache.has url state = true
    · rw [if_pos hh]
      exact ⟨s, _, rfl, rfl, rfl, rfl⟩
    · rw [if_neg hh]
      obtain ⟨v, hv⟩ := hax s.axeCalls
      rw [hv]
      exact ⟨_, v, rfl, rfl, rfl, rfl⟩
  · rw [if_neg he]
    exact ⟨s, .null, rfl, rfl, rfl, rfl⟩

theorem axePhase_results (env : Env) (engines : Engines) (url state : String)
    (s : OrchState) :
    (axePhase env engines url state s).1.results = s.results := by
  unfold axePhase
  by_cases he : env.enableAxe = true
  · rw [if_pos he]
    by_cases hh : s.cache.has url state = true
    · rw [if_pos hh]
    · rw [if_neg hh]
      cases engines.axe s.axeCalls <;> rfl
  · rw [if_neg he]

theorem lighthouseLoop_ok (engines : Engines) (url state : String)
    (hlhe : ∀ i, ∃ v, engines.lighthouse i = .ok v) :
    ∀ (n : ℕ) (s : OrchState),
      ∃ s1, lighthouseLoop engines url state n s = (s1, none) ∧
        s1.lighthouseCalls = s.lighthouseCalls + n ∧
        (s1.cache.getLighthouseRuns url state).length =
          (s.cache.getLighthouseRuns url state).length + n ∧
        s1.results = s.results := by
  intro n
  induction n with
  | zero => exact fun s => ⟨s, rfl, rfl, rfl, rfl⟩
  | succ n ih =>
    intro s
    obtain ⟨v, hv⟩ := hlhe s.lighthouseCalls
    obtain ⟨s1, heq, hcalls, hruns, hres⟩ := ih
      { s with
        lighthouseCalls := s.lighthouseCalls + 1,
        cache := s.cache.addLighthouseRun url v state }
    refine ⟨s1, ?_, ?_, ?_, hres⟩
    · unfold lighthouseLoop
      rw [hv]
      exact heq
    · have hc : ({ s with
          lighthouseCalls := s.lighthouseCalls + 1,
          cache := s.cache.addLighthouseRun url v state } :
            OrchState).lighthouseCalls = s.lighthouseCalls + 1 := rfl
      omega
    · have hstep : (({ s with
          lighthouseCalls := s.lighthouseCalls + 1,
          cache := s.cache.addLighthouseRun url v state } :
            OrchState).cache.getLighthouseRuns url state).length =
          (s.cache.getLighthouseRuns url state).length + 1 := by
        simp [getLighthouseRuns_addLighthouseRun_self]
      omega

theorem lighthouseLoop_results (engines : Engines) (url state : String) :
    ∀ (n : ℕ) (s : OrchState),
      ((lighthouseLoop engines url state n s).1).results = s.results := by
  intro n
  induction n with
  | zero => exact fun s => rfl
  | succ n ih =>
    intro s
    unfold lighthouseLoop
    cases engines.lighthouse s.lighthouseCalls with
    | error e => rfl
    | ok v => exact ih _

theorem lighthousePhase_ok (env : Env) (engines : Engines)
    (url state : String) (s : OrchState)
    (hlh : env.enableLighthouse = true)
    (hlhe : ∀ i, ∃ v, engines.lighthouse i = .ok v) :
    ∃ s1 v, lighthousePhase env engines url state s = (s1, .ok v) ∧
      s1.lighthouseCalls = s.lighthouseCalls +
        (REQUIRED_LIGHTHOUSE_RUNS -
          (s.cache.getLighthouseRuns url state).length) ∧
      (s1.cache.getLighthouseRuns url state).length =
        max (s.cache.getLighthouseRuns url state).length
          REQUIRED_LIGHTHOUSE_RUNS ∧
      s1.results = s.results := by
  unfold lighthousePhase
  rw [if_pos hlh]
  by_cases hen : s.cache.hasEnoughLighthouseRuns url state
      REQUIRED_LIGHTHOUSE_RUNS = true
  · have hge : REQUIRED_LIGHTHOUSE_RUNS ≤
        (s.cache.getLighthouseRuns url state).length := by
      simpa [AuditCache.hasEnoughLighthouseRuns] using hen
    rw [if_neg (by simp [hen])]
    refine ⟨s, _, rfl, by omega, by omega, rfl⟩
  · have hlt : (s.cache.getLighthouseRuns url state).length <
        REQUIRED_LIGHTHOUSE_RUNS := by
      have := hen
      simp [AuditCache.hasEnoughLighthouseRuns] at this
      exact this
    rw [if_pos (by simp [hen])]
    obtain ⟨s1, heq, hcalls, hruns, hres⟩ := lighthouseLoop_ok engines url
      state hlhe
      (REQUIRED_LIGHTHOUSE_RUNS - (s.cache.getLighthouseRuns url state).length)
      s
    rw [heq]
    refine ⟨s1, _, rfl, hcalls, ?_, hres⟩
    rw [hruns]
    omega

theorem lighthousePhase_results (env : Env) (engines : Engines)
    (url state : String) (s : OrchState) :
    ((lighthousePhase env engines url state s).1).results = s.results := by
  unfold lighthousePhase
  by_cases hlh : env.enableLighthouse = true
  · rw [if_pos hlh]
    by_cases hen : s.cache.hasEnoughLighthouseRuns url state
        REQUIRED_LIGHTHOUSE_RUNS = true
    · rw [if_neg (by simp [hen])]
    · rw [if_pos (by simp [hen])]
      rcases hl : lighthouseLoop engines url state
          (REQUIRED_LIGHTHOUSE_RUNS -
            (s.cache.getLighthouseRuns url state).length) s with ⟨s1, o⟩
      have := lighthouseLoop_results engines url state
        (REQUIRED_LIGHTHOUSE_RUNS -
          (s.cache.getLighthouseRuns url state).length) s
      rw [hl] at this
      cases o with
      | none => exact this
      | some e => exact this
  · rw [if_neg hlh]

theorem axePhase_error_source (env : Env) (engines : Engines)
    (url state : String) (s : OrchState) (s1 : OrchState) (e : String)
    (h : axePhase env engines url state s = (s1, .error e)) :
    engines.axe s.axeCalls = .error e := by
  unfold axePhase at h
  by_cases he : env.enableAxe = true
  · rw [if_pos he] at h
    by_cases hh : s.cache.has url state = true
    · rw [if_pos hh] at h
      simp at h
    · rw [if_neg hh] at h
      cases hv : engines.axe s.axeCalls with
      | error f =>
        rw [hv] at h
        simp only [Prod.mk.injEq, Except.error.injEq] at h
        rw [h.2]
      | ok v =>
        rw [hv] at h
        simp at h
  · rw [if_neg he] at h
    simp at h

theorem lighthouseLoop_error_source (engines : Engines)
    (url state : String) :
    ∀ (n : ℕ) (s s1 : OrchState) (e : String),
      lighthouseLoop engines url state n s = (s1, some e) →
      ∃ i, engines.lighthouse i = .error e := by
  intro n
  induction n with
  | zero =>
    intro s s1 e h
    simp [lighthouseLoop] at h
  | succ n ih =>
    intro s s1 e h
    unfold lighthouseLoop at h
    cases hv : engines.lighthouse s.lighthouseCalls with
    | error f =>
      rw [hv] at h
      simp only [Prod.mk.injEq, Option.some.injEq] at h
      exact ⟨s.lighthouseCalls, by rw [hv, h.2]⟩
    | ok v =>
      rw [hv] at h
      exact ih _ _ _ h

theorem lighthousePhase_error_source (env : Env) (engines : Engines)
    (url state : String) (s : OrchState) (s1 : OrchState) (e : String)
    (h : lighthousePhase env engines url state s = (s1, .error e)) :
    ∃ i, engines.lighthouse i = .error e := by
  unfold lighthousePhase at h
  by_cases hlh : env.enableLighthouse = true
  · rw [if_pos hlh] at h
    by_cases hen : s.cache.hasEnoughLighthouseRuns url state
        REQUIRED_LIGHTHOUSE_RUNS = true
    · rw [if_neg (by simp [hen])] at h
      simp at h
    · rw [if_pos (by simp [hen])] at h
      rcases hl : lighthouseLoop engines url state
          (REQUIRED_LIGHTHOUSE_RUNS -
            (s.cache.getLighthouseRuns url state).length) s with ⟨sl, o⟩
      rw [hl] at h
      cases o with
      | none => simp at h
      | some f =>
        simp only [Prod.mk.injEq, Except.error.injEq] at h
        exact h.2 ▸ lighthouseLoop_error_source engines url state _ s sl f hl
  · rw [if_neg hlh] at h
    simp at h

theorem runCombinedAudit_ok_counts (env : Env) (engines : Engines)
    (url : String) (items : List Bool) (testInfo : JSValue) (s : OrchState)
    (hlh : env.enableLighthouse = true)
    (hax : ∀ i, ∃ v, engines.axe i = .ok v)
    (hlhe : ∀ i, ∃ v, engines.lighthouse i = .ok v) :
    (runCombinedAudit env engines url items testInfo s).1.lighthouseCalls =
      s.lighthouseCalls + (REQUIRED_LIGHTHOUSE_RUNS -
        (s.cache.getLighthouseRuns url (getPageState items)).length) ∧
    ((runCombinedAudit env engines url items testInfo
        s).1.cache.getLighthouseRuns url (getPageState items)).length =
      max (s.cache.getLighthouseRuns url (getPageState items)).length
        REQUIRED_LIGHTHOUSE_RUNS := by
  obtain ⟨s1, v, haxe, hlruns, hlcalls, _⟩ := axePhase_ok env engines url
    (getPageState items) s hax
  have hruns1 : s1.cache.getLighthouseRuns url (getPageState items) =
      s.cache.getLighthouseRuns url (getPageState items) := by
    unfold AuditCache.getLighthouseRuns
    rw [hlruns]
  obtain ⟨s2, w, hlph, hc2, hl2, _⟩ := lighthousePhase_ok env engines url
    (getPageState items) s1 hlh hlhe
  unfold runCombinedAudit
  simp only [haxe, hlph]
  constructor
  · show s2.lighthouseCalls = _
    rw [hc2, hruns1, hlcalls]
  · show (s2.cache.getLighthouseRuns url (getPageState items)).length = _
    rw [hl2, hruns1]

/-! ## Claim C3 -/

/-- C3: with the lighthouse audit enabled and every engine invocation
succeeding, an orchestrator call with `k` runs already cached for the
page's key invokes the lighthouse engine exactly `3 - k` more times
(truncated subtraction, i.e. `max (0, 3 - k)`), after which the key holds
`max k 3` runs; a second call with the same key invokes the engine `0`
additional times. -/
theorem C3_lighthouse_run_topup (env : Env) (engines : Engines)
    (url : String) (items : List Bool) (testInfo : JSValue) (s : OrchState)
    (hlh : env.enableLighthouse = true)
    (hax : ∀ i, ∃ v, engines.axe i = .ok v)
    (hlhe : ∀ i, ∃ v, engines.lighthouse i = .ok v) :
    (runCombinedAudit env engines url items testInfo s).1.lighthouseCalls =
      s.lighthouseCalls + (REQUIRED_LIGHTHOUSE_RUNS -
        (s.cache.getLighthouseRuns url (getPageState items)).length) ∧
    ((runCombinedAudit env engines url items testInfo
        s).1.cache.getLighthouseRuns url (getPageState items)).length =
      max (s.cache.getLighthouseRuns url (getPageState items)).length
        REQUIRED_LIGHTHOUSE_RUNS ∧
    (runCombinedAudit env engines url items testInfo
        (runCombinedAudit env engines url items testInfo
          s).1).1.lighthouseCalls =
      (runCombinedAudit env engines url items testInfo
        s).1.lighthouseCalls := by
  obtain ⟨h1, h2⟩ := runCombinedAudit_ok_counts env engines url items
    testInfo s hlh hax hlhe
  obtain ⟨h1', _⟩ := runCombinedAudit_ok_counts env engines url items
    testInfo (runCombinedAudit env engines url items testInfo s).1 hlh hax
    hlhe
  refine ⟨h1, h2, ?_⟩
  rw [h1', h2]
  have : REQUIRED_LIGHTHOUSE_RUNS = 3 := rfl
  omega

/-- Witness for C3: with an empty initial state (`k = 0`), the first call
makes exactly 3 lighthouse-engine invocations, leaves 3 cached runs, and a
second call makes 0 additional invocations. -/
theorem C3_lighthouse_run_topup_witness :
    ((⟨false, true⟩ : Env).enableLighthouse = true ∧
      (∀ i, ∃ v, (⟨fun _ => .ok .null, fun _ => .ok (.obj [])⟩ :
        Engines).axe i = .ok v) ∧
      (∀ i, ∃ v, (⟨fun _ => .ok .null, fun _ => .ok (.obj [])⟩ :
        Engines).lighthouse i = .ok v)) ∧
    ((runCombinedAudit ⟨false, true⟩
        ⟨fun _ => .ok .null, fun _ => .ok (.obj [])⟩ "/todo" [] .null
        ⟨AuditCache.emptyCache, [], 0, 0⟩).1.lighthouseCalls = 3 ∧
      ((runCombinedAudit ⟨false, true⟩
          ⟨fun _ => .ok .null, fun _ => .ok (.obj [])⟩ "/todo" [] .null
          ⟨AuditCache.emptyCache, [], 0, 0⟩).1.cache.getLighthouseRuns
        "/todo" (getPageState [])).length = 3 ∧
      (runCombinedAudit ⟨false, true⟩
        ⟨fun _ => .ok .null, fun _ => .ok (.obj [])⟩ "/todo" [] .null
        (runCombinedAudit ⟨false, true⟩
          ⟨fun _ => .ok .null, fun _ => .ok (.obj [])⟩ "/todo" [] .null
          ⟨AuditCache.emptyCache, [], 0, 0⟩).1).1.lighthouseCalls =
      (runCombinedAudit ⟨false, true⟩
        ⟨fun _ => .ok .null, fun _ => .ok (.obj [])⟩ "/todo" [] .null
        ⟨AuditCache.emptyCache, [], 0, 0⟩).1.lighthouseCalls) :=
  ⟨⟨rfl, fun _ => ⟨.null, rfl⟩, fun _ => ⟨.obj [], rfl⟩⟩,
    C3_lighthouse_run_topup ⟨false, true⟩
      ⟨fun _ => .ok .null, fun _ => .ok (.obj [])⟩ "/todo" [] .null
      ⟨AuditCache.emptyCache, [], 0, 0⟩ rfl
      (fun _ => ⟨.null, rfl⟩) (fun _ => ⟨.obj [], rfl⟩)⟩

theorem axePhase_no_failure (env : Env) (engines : Engines)
    (url state : String) (s : OrchState)
    (hax : env.enableAxe = false ∨ ∀ i, ∃ v, engines.axe i = .ok v) :
    ∃ s1 v, axePhase env engines url state s = (s1, .ok v) ∧
      s1.cache.lighthouseRuns = s.cache.lighthouseRuns ∧
      s1.lighthouseCalls = s.lighthouseCalls ∧
      s1.results = s.results := by
  cases hax with
  | inl h =>
    refine ⟨s, .null, ?_, rfl, rfl, rfl⟩
    unfold axePhase
    rw [if_neg (by simp [h])]
  | inr h => exact axePhase_ok env engines url state s h

theorem lighthouseLoop_first_error (engines : Engines) (url state : String) :
    ∀ (n : ℕ) (s : OrchState) (j : ℕ) (e : String), j < n →
      (∀ i, i < j → ∃ v, engines.lighthouse (s.lighthouseCalls + i) =
        .ok v) →
      engines.lighthouse (s.lighthouseCalls + j) = .error e →
      ∃ s1, lighthouseLoop engines url state n s = (s1, some e) ∧
        s1.results = s.results := by
  intro n
  induction n with
  | zero => intro s j e hj _ _; exact absurd hj (Nat.not_lt_zero j)
  | succ n ih =>
    intro s j e hj hok herr
    cases j with
    | zero =>
      have herr0 : engines.lighthouse s.lighthouseCalls = .error e := by
        simpa using herr
      refine ⟨{ s with lighthouseCalls := s.lighthouseCalls + 1 }, ?_, rfl⟩
      unfold lighthouseLoop
      rw [herr0]
    | succ m =>
      obtain ⟨v, hv⟩ := hok 0 (Nat.succ_pos m)
      have hv0 : engines.lighthouse s.lighthouseCalls = .ok v := by
        simpa using hv
      have hok' : ∀ i, i < m →
          ∃ w, engines.lighthouse
            (({ s with
                lighthouseCalls := s.lighthouseCalls + 1,
                cache := s.cache.addLighthouseRun url v state } :
              OrchState).lighthouseCalls + i) = .ok w := by
        intro i hi
        have hidx : ({ s with
            lighthouseCalls := s.lighthouseCalls + 1,
            cache := s.cache.addLighthouseRun url v state } :
              OrchState).lighthouseCalls + i =
            s.lighthouseCalls + (i + 1) := by
          show s.lighthouseCalls + 1 + i = s.lighthouseCalls + (i + 1)
          omega
        rw [hidx]
        exact hok (i + 1) (by omega)
      have herr' : engines.lighthouse
          (({ s with
              lighthouseCalls := s.lighthouseCalls + 1,
              cache := s.cache.addLighthouseRun url v state } :
            OrchState).lighthouseCalls + m) = .error e := by
        have hidx : ({ s with
            lighthouseCalls := s.lighthouseCalls + 1,
            cache := s.cache.addLighthouseRun url v state } :
              OrchState).lighthouseCalls + m =
            s.lighthouseCalls + (m + 1) := by
          show s.lighthouseCalls + 1 + m = s.lighthouseCalls + (m + 1)
          omega
        rw [hidx]
        exact herr
      obtain ⟨s1, heq, hres⟩ := ih
        { s with
          lighthouseCalls := s.lighthouseCalls + 1,
          cache := s.cache.addLighthouseRun url v state }
        m e (Nat.lt_of_succ_lt_succ hj) hok' herr'
      refine ⟨s1, ?_, hres⟩
      unfold lighthouseLoop
      rw [hv0]
      exact heq

theorem lighthousePhase_first_error (env : Env) (engines : Engines)
    (url state : String) (s : OrchState)
    (hlh : env.enableLighthouse = true)
    (hdef : s.cache.hasEnoughLighthouseRuns url state
      REQUIRED_LIGHTHOUSE_RUNS = false)
    (j : ℕ) (e : String)
    (hj : j < REQUIRED_LIGHTHOUSE_RUNS -
      (s.cache.getLighthouseRuns url state).length)
    (hok : ∀ i, i < j → ∃ v, engines.lighthouse (s.lighthouseCalls + i) =
      .ok v)
    (herr : engines.lighthouse (s.lighthouseCalls + j) = .error e) :
    ∃ s1, lighthousePhase env engines url state s = (s1, .error e) ∧
      s1.results = s.results := by
  obtain ⟨s1, heq, hres⟩ := lighthouseLoop_first_error engines url state
    (REQUIRED_LIGHTHOUSE_RUNS - (s.cache.getLighthouseRuns url state).length)
    s j e hj hok herr
  refine ⟨s1, ?_, hres⟩
  unfold lighthousePhase
  rw [if_pos hlh, if_pos (by simp [hdef]), heq]

/-! ## Claim C7 -/

/-- C7: when an external audit engine invocation fails — from either
engine — the failure propagates to the orchestrator's caller uncaught and
no incomplete `CombinedResult` is appended to the result collection.
First conjunct: an erroring call leaves the collection exactly as it was.
Second conjunct: an axe-engine failure on a cache miss becomes the call's
outcome, unchanged.  Third conjunct: any error outcome is literally some
engine invocation's own error (errors originate nowhere else and are
never remapped).  Fourth conjunct: a lighthouse-engine failure — the
first failing invocation, at any offset `j` of the run-deficit loop, the
axe phase itself not failing — becomes the call's outcome, unchanged, and
leaves the collection untouched. -/
theorem C7_engine_failure_propagates (env : Env) (engines : Engines)
    (url : String) (items : List Bool) (testInfo : JSValue)
    (s : OrchState) :
    (∀ e, (runCombinedAudit env engines url items testInfo s).2 =
        .error e →
      (runCombinedAudit env engines url items testInfo s).1.results =
        s.results) ∧
    (env.enableAxe = true →
      s.cache.has url (getPageState items) = false →
      ∀ e, engines.axe s.axeCalls = .error e →
        (runCombinedAudit env engines url items testInfo s).2 =
          .error e) ∧
    (∀ e, (runCombinedAudit env engines url items testInfo s).2 =
        .error e →
      (∃ i, engines.axe i = .error e) ∨
      (∃ i, engines.lighthouse i = .error e)) ∧
    ((env.enableAxe = false ∨ ∀ i, ∃ v, engines.axe i = .ok v) →
      env.enableLighthouse = true →
      s.cache.hasEnoughLighthouseRuns url (getPageState items)
        REQUIRED_LIGHTHOUSE_RUNS = false →
      ∀ (j : ℕ) (e : String),
        j < REQUIRED_LIGHTHOUSE_RUNS -
          (s.cache.getLighthouseRuns url (getPageState items)).length →
        (∀ i, i < j →
          ∃ v, engines.lighthouse (s.lighthouseCalls + i) = .ok v) →
        engines.lighthouse (s.lighthouseCalls + j) = .error e →
        (runCombinedAudit env engines url items testInfo s).2 =
          .error e ∧
        (runCombinedAudit env engines url items testInfo s).1.results =
          s.results) := by
  refine ⟨?_, ?_, ?_, ?_⟩
  · rcases h1 : axePhase env engines url (getPageState items) s
      with ⟨s1, r1⟩
    have hres1 : s1.results = s.results := by
      have := axePhase_results env engines url (getPageState items) s
      rw [h1] at this
      exact this
    cases r1 with
    | error e1 =>
      intro e _
      unfold runCombinedAudit
      simp only [h1]
      exact hres1
    | ok v =>
      rcases h2 : lighthousePhase env engines url (getPageState items) s1
        with ⟨s2, r2⟩
      have hres2 : s2.results = s1.results := by
        have := lighthousePhase_results env engines url
          (getPageState items) s1
        rw [h2] at this
        exact this
      cases r2 with
      | error e2 =>
        intro e _
        unfold runCombinedAudit
        simp only [h1, h2]
        rw [hres2, hres1]
      | ok w =>
        intro e he
        unfold runCombinedAudit at he
        simp only [h1, h2] at he
        exact Except.noConfusion he
  · intro hax hhas e herr
    unfold runCombinedAudit axePhase
    simp [hax, hhas, herr]
  · rcases h1 : axePhase env engines url (getPageState items) s
      with ⟨s1, r1⟩
    cases r1 with
    | error e1 =>
      intro e he
      unfold runCombinedAudit at he
      simp only [h1] at he
      rw [Except.error.injEq] at he
      exact Or.inl ⟨s.axeCalls,
        he ▸ axePhase_error_source env engines url (getPageState items) s
          s1 e1 h1⟩
    | ok v =>
      rcases h2 : lighthousePhase env engines url (getPageState items) s1
        with ⟨s2, r2⟩
      cases r2 with
      | error e2 =>
        intro e he
        unfold runCombinedAudit at he
        simp only [h1, h2] at he
        rw [Except.error.injEq] at he
        exact Or.inr (he ▸ lighthousePhase_error_source env engines url
          (getPageState items) s1 s2 e2 h2)
      | ok w =>
        intro e he
        unfold runCombinedAudit at he
        simp only [h1, h2] at he
        exact Except.noConfusion he
  · intro hax hlh hdef j e hj hok herr
    obtain ⟨s1, v, haxe, hlruns, hlcalls, hres1⟩ := axePhase_no_failure env
      engines url (getPageState items) s hax
    have hruns1 : s1.cache.getLighthouseRuns url (getPageState items) =
        s.cache.getLighthouseRuns url (getPageState items) := by
      unfold AuditCache.getLighthouseRuns
      rw [hlruns]
    have hdef1 : s1.cache.hasEnoughLighthouseRuns url (getPageState items)
        REQUIRED_LIGHTHOUSE_RUNS = false := by
      unfold AuditCache.hasEnoughLighthouseRuns
      rw [hruns1]
      unfold AuditCache.hasEnoughLighthouseRuns at hdef
      exact hdef
    obtain ⟨s2, hlph, hres2⟩ := lighthousePhase_first_error env engines url
      (getPageState items) s1 hlh hdef1 j e
      (by rw [hruns1]; exact hj)
      (by rw [hlcalls]; exact hok)
      (by rw [hlcalls]; exact herr)
    have hrun : runCombinedAudit env engines url items testInfo s =
        (s2, .error e) := by
      unfold runCombinedAudit
      simp only [haxe, hlph]
    rw [hrun]
    exact ⟨rfl, hres2.trans hres1⟩

/-- Witness for C7: a failing axe engine on an empty cache aborts the call
with that error and appends nothing to the (empty) result collection; a
failing lighthouse engine (axe disabled, empty cache, first loop
invocation fails) likewise aborts the call with its own error and appends
nothing. -/
theorem C7_engine_failure_propagates_witness :
    (((runCombinedAudit ⟨true, false⟩
        ⟨fun _ => .error "boom", fun _ => .ok .null⟩ "/todo" [] .null
        ⟨AuditCache.emptyCache, [], 0, 0⟩).2 = .error "boom") ∧
      ((runCombinedAudit ⟨true, false⟩
        ⟨fun _ => .error "boom", fun _ => .ok .null⟩ "/todo" [] .null
        ⟨AuditCache.emptyCache, [], 0, 0⟩).1.results = [])) ∧
    (((⟨false, true⟩ : Env).enableAxe = false ∧
      (⟨false, true⟩ : Env).enableLighthouse = true ∧
      AuditCache.emptyCache.hasEnoughLighthouseRuns "/todo"
        (getPageState []) REQUIRED_LIGHTHOUSE_RUNS = false ∧
      (0 : ℕ) < REQUIRED_LIGHTHOUSE_RUNS -
        (AuditCache.emptyCache.getLighthouseRuns "/todo"
          (getPageState [])).length ∧
      (⟨fun _ => .ok .null, fun _ => .error "lhboom"⟩ :
        Engines).lighthouse 0 = .error "lhboom") ∧
      ((runCombinedAudit ⟨false, true⟩
          ⟨fun _ => .ok .null, fun _ => .error "lhboom"⟩ "/todo" [] .null
          ⟨AuditCache.emptyCache, [], 0, 0⟩).2 = .error "lhboom" ∧
        (runCombinedAudit ⟨false, true⟩
          ⟨fun _ => .ok .null, fun _ => .error "lhboom"⟩ "/todo" [] .null
          ⟨AuditCache.emptyCache, [], 0, 0⟩).1.results = [])) :=
  ⟨⟨rfl,
    (C7_engine_failure_propagates ⟨true, false⟩
      ⟨fun _ => .error "boom", fun _ => .ok .null⟩ "/todo" [] .null
      ⟨AuditCache.emptyCache, [], 0, 0⟩).1 "boom" rfl⟩,
   ⟨⟨rfl, rfl, rfl, by decide, rfl⟩,
    (C7_engine_failure_propagates ⟨false, true⟩
      ⟨fun _ => .ok .null, fun _ => .error "lhboom"⟩ "/todo" [] .null
      ⟨AuditCache.emptyCache, [], 0, 0⟩).2.2.2 (Or.inl rfl) rfl rfl 0
      "lhboom" (by decide)
      (fun i hi => absurd hi (Nat.not_lt_zero i)) rfl⟩⟩

end AuditSpec
